import Mathlib

/-!
Shallow embedding of `scripts/statistic/download_stats.py`: a script that
fetches the GitHub release list of `Leadaxe/singbox-launcher`, aggregates
per-release and grand-total download counts, and renders a textual report
(table, summary, latest release, top-3 ranking).

Machine integers are modelled as `Nat` (all counts in the script are
non-negative and Python integers are unbounded, so no overflow arithmetic is
needed).  Python dict `.get(key, default)` access on possibly-missing JSON
fields is modelled with `Option` fields plus `Option.getD`.  The single
network call cannot be embedded; `runMain` takes the outcome of the fetch
(`FetchResult`) as input and models everything the script does after the
`try/except` block around `urllib.request.urlopen`/`json.loads`.
-/

/-- Python `s.ljust`-style padding as produced by `f"{s:<w}"`: pad on the
right with spaces up to `w` characters, never truncating. -/
def ljust (s : String) (w : Nat) : String :=
  s ++ String.mk (List.replicate (w - s.length) ' ')

/-- Python `f"{s:>w}"`: pad on the left with spaces up to `w` characters. -/
def rjust (s : String) (w : Nat) : String :=
  String.mk (List.replicate (w - s.length) ' ') ++ s

/-- Helper for `format_number`: input is the digit list least-significant
first; a comma is inserted before every digit whose position is a positive
multiple of 3. -/
def commaGroup : List Char → Nat → List Char
  | [], _ => []
  | c :: rest, k =>
    if k % 3 == 0 && k != 0 then ',' :: c :: commaGroup rest (k + 1)
    else c :: commaGroup rest (k + 1)

/-- Model of `format_number` (line 9): Python `f"{n:,}"`, decimal digits
grouped in threes by commas. -/
def format_number (n : Nat) : String :=
  String.mk (commaGroup (Nat.repr n).data.reverse 0).reverse

/-- Numeric value of an ASCII digit character. -/
def digitVal (c : Char) : Nat := c.toNat - 48

/-- Value of a most-significant-first ASCII digit string. -/
def digitsVal (cs : List Char) : Nat :=
  cs.foldl (fun a c => 10 * a + digitVal c) 0

/-- Naive datetime as produced by CPython `datetime.fromisoformat`; the
timezone offset is validated during parsing but not stored, since
`strftime` with the format used by the script never consults it. -/
structure PyDateTime where
  year : Nat
  month : Nat
  day : Nat
  hour : Nat
  minute : Nat
  second : Nat
deriving Repr, DecidableEq

/-- Read exactly two ASCII digits, returning their value and the rest. -/
def parse2 : List Char → Option (Nat × List Char)
  | a :: b :: rest =>
    if a.isDigit && b.isDigit then some (10 * digitVal a + digitVal b, rest)
    else none
  | _ => none

/-- Model of CPython `datetime._parse_hh_mm_ss_ff`: grammar
`HH[:MM[:SS[.fff[fff]]]]`, returning (hour, minute, second, microsecond).
Range validation happens later, as in the Python `datetime` constructor. -/
def parseHMSF (ts : List Char) : Option (Nat × Nat × Nat × Nat) :=
  match parse2 ts with
  | none => none
  | some (h, r1) =>
    match r1 with
    | [] => some (h, 0, 0, 0)
    | ':' :: r2 =>
      match parse2 r2 with
      | none => none
      | some (m, r3) =>
        match r3 with
        | [] => some (h, m, 0, 0)
        | ':' :: r4 =>
          match parse2 r4 with
          | none => none
          | some (s, r5) =>
            match r5 with
            | [] => some (h, m, s, 0)
            | '.' :: r6 =>
              if r6.length == 3 && r6.all Char.isDigit then
                some (h, m, s, 1000 * digitsVal r6)
              else if r6.length == 6 && r6.all Char.isDigit then
                some (h, m, s, digitsVal r6)
              else none
            | _ => none
        | _ => none
    | _ => none

/-- Model of the timezone split in CPython `datetime._parse_isoformat_time`:
the time string is cut at the first `'-'` if one occurs, else at the first
`'+'`; the cut character is dropped (its sign does not affect validity). -/
def splitTz (ts : List Char) : List Char × Option (List Char) :=
  match ts.findIdx? (fun c => c == '-') with
  | some i => (ts.take i, some (ts.drop (i + 1)))
  | none =>
    match ts.findIdx? (fun c => c == '+') with
    | some i => (ts.take i, some (ts.drop (i + 1)))
    | none => (ts, none)

/-- Gregorian leap-year rule, as in Python `calendar`/`datetime`. -/
def isLeapYear (y : Nat) : Bool :=
  y % 4 == 0 && (y % 100 != 0 || y % 400 == 0)

/-- Days in a month, as validated by the Python `datetime` constructor. -/
def daysInMonth (y m : Nat) : Nat :=
  if m == 2 then (if isLeapYear y then 29 else 28)
  else if m == 4 || m == 6 || m == 9 || m == 11 then 30
  else 31

/-- Range validation done by the Python `datetime` constructor (date part):
`MINYEAR = 1`, `MAXYEAR = 9999`. -/
def validDate (y m d : Nat) : Bool :=
  1 ≤ y && y ≤ 9999 && 1 ≤ m && m ≤ 12 && 1 ≤ d && d ≤ daysInMonth y m

/-- Range validation done by the Python `datetime` constructor (time part). -/
def validTime (h mi s us : Nat) : Bool :=
  h ≤ 23 && mi ≤ 59 && s ≤ 59 && us ≤ 999999

/-- Model of CPython `datetime._parse_isoformat_date`: exactly
`YYYY-MM-DD` with ASCII digits. -/
def parseIsoDate : List Char → Option (Nat × Nat × Nat)
  | [y1, y2, y3, y4, s1, m1, m2, s2, d1, d2] =>
    if y1.isDigit && y2.isDigit && y3.isDigit && y4.isDigit && s1 == '-' &&
        m1.isDigit && m2.isDigit && s2 == '-' && d1.isDigit && d2.isDigit then
      some (digitsVal [y1, y2, y3, y4], digitsVal [m1, m2], digitsVal [d1, d2])
    else none
  | _ => none

/-- Model of CPython `datetime._parse_isoformat_time`: a time with an
optional `±HH:MM[:SS[.ffffff]]` offset whose textual length must be 5, 8 or
15 and whose magnitude must be strictly below 24 hours (the bound enforced
by the `timezone` constructor). -/
def parseIsoTime (ts : List Char) : Option (Nat × Nat × Nat × Nat) :=
  match splitTz ts with
  | (timestr, none) => parseHMSF timestr
  | (timestr, some tzstr) =>
    match parseHMSF timestr with
    | none => none
    | some t =>
      if tzstr.length == 5 || tzstr.length == 8 || tzstr.length == 15 then
        match parseHMSF tzstr with
        | none => none
        | some (th, tm, tsec, tus) =>
          if ((th * 3600 + tm * 60 + tsec) * 1000000 + tus) < 86400000000 then
            some t
          else none
      else none

/-- Model of CPython `datetime.fromisoformat` (the pre-3.11 reference
implementation, the grammar the script relies on): the first 10 characters
must be a strict `YYYY-MM-DD`; a single separator character at index 10 is
skipped without inspection; the remainder, when non-empty, must be a valid
time with optional offset; finally the `datetime` constructor's range checks
apply.  Numeric fields are restricted to ASCII digits. -/
def fromisoformat (s : String) : Option PyDateTime :=
  match parseIsoDate (s.data.take 10) with
  | none => none
  | some (y, mo, d) =>
    let tstr := s.data.drop 11
    match (if tstr.isEmpty then some (0, 0, 0, 0) else parseIsoTime tstr) with
    | none => none
    | some (h, mi, sec, us) =>
      if validDate y mo d && validTime h mi sec us then
        some { year := y, month := mo, day := d, hour := h, minute := mi, second := sec }
      else none

/-- Zero-pad a decimal rendering to width `w`. -/
def zpad (w n : Nat) : String :=
  let s := Nat.repr n
  String.mk (List.replicate (w - s.length) '0' ++ s.data)

/-- Python `dt.strftime("%Y-%m-%d %H:%M")` on the parsed datetime. -/
def strftimeYmdHM (dt : PyDateTime) : String :=
  zpad 4 dt.year ++ "-" ++ zpad 2 dt.month ++ "-" ++ zpad 2 dt.day ++ " " ++
    zpad 2 dt.hour ++ ":" ++ zpad 2 dt.minute

/-- Python `date_str.replace("Z", "+00:00")` (line 14): every occurrence of
`'Z'` is replaced, not only a trailing one. -/
def replaceZChars : List Char → List Char
  | [] => []
  | c :: cs => (if c == 'Z' then "+00:00".data else [c]) ++ replaceZChars cs

/-- Model of `format_date` (lines 12-17): replace `'Z'` by `"+00:00"`, try
`fromisoformat`, render `"%Y-%m-%d %H:%M"` on success and fall back to the
raw input on any parse failure (the bare `except`). -/
def format_date (date_str : String) : String :=
  match fromisoformat (String.mk (replaceZChars date_str.data)) with
  | some dt => strftimeYmdHM dt
  | none => date_str

/-- Replacement of only a trailing `'Z'` by `"+00:00"`. -/
def replaceTrailingZ (cs : List Char) : List Char :=
  if cs.getLast? == some 'Z' then cs.dropLast ++ "+00:00".data else cs

/-- Date formatting as worded by the spec (claim C3): parse the input as an
ISO-8601 timestamp accepting only a *trailing* `'Z'` as the UTC offset
`"+00:00"`, render `"YYYY-MM-DD HH:MM"` on success, and pass the raw string
through on failure.  Kept separate from `format_date` (which follows the
source and replaces every `'Z'`) for the refinement comparison. -/
def format_date_spec (date_str : String) : String :=
  match fromisoformat (String.mk (replaceTrailingZ date_str.data)) with
  | some dt => strftimeYmdHM dt
  | none => date_str

/-- Raw asset record from the JSON response.  `Option` models possibly
missing JSON fields, read in the source with `.get(key, default)`. -/
structure RawAsset where
  name : Option String
  download_count : Option Nat
deriving Repr, DecidableEq

/-- Raw release record from the JSON response. -/
structure RawRelease where
  tag_name : Option String
  published_at : Option String
  assets : Option (List RawAsset)
deriving Repr, DecidableEq

/-- Per-release summary dict built at lines 62-69 of the script. -/
structure Stat where
  version : String
  date : String
  downloads : Nat
  assets_count : Nat
  win : Bool
  mac : Bool
deriving Repr, DecidableEq

/-- Python `asset.get('download_count', 0)`. -/
def assetDownloads (a : RawAsset) : Nat := a.download_count.getD 0

/-- Line 55: `sum(asset.get('download_count', 0) for asset in assets)`,
modelled as the left fold Python's `sum` performs. -/
def releaseTotal (assets : List RawAsset) : Nat :=
  assets.foldl (fun acc a => acc + assetDownloads a) 0

/-- Test whether `pat` starts `l` (Python `str.startswith` on char lists). -/
def startsWith : List Char → List Char → Bool
  | [], _ => true
  | _ :: _, [] => false
  | p :: ps, c :: cs => p == c && startsWith ps cs

/-- Python's substring operator `pat in l` on char lists. -/
def containsSub (pat : List Char) : List Char → Bool
  | [] => pat.isEmpty
  | c :: rest => startsWith pat (c :: rest) || containsSub pat rest

/-- Python `str.lower()` restricted to ASCII case mapping (every string the
script actually probes is ASCII). -/
def pyLower (cs : List Char) : List Char := cs.map Char.toLower

/-- Lines 59-60: `sum(1 for a in assets if pat in a.get('name', '').lower())`. -/
def matchCount (pat : String) (assets : List RawAsset) : Nat :=
  assets.countP (fun a => containsSub pat.data (pyLower (a.name.getD "").data))

/-- Lines 49-69: the per-release summary dict appended to `release_stats`. -/
def summarize (r : RawRelease) : Stat :=
  let assets := r.assets.getD []
  { version := r.tag_name.getD "N/A"
  , date := format_date (r.published_at.getD "N/A")
  , downloads := releaseTotal assets
  , assets_count := assets.length
  , win := decide (0 < matchCount "win" assets)
  , mac := decide (0 < matchCount "macos" assets) }

/-- The `release_stats` list in input order, before the sort at line 72. -/
def releaseStats (releases : List RawRelease) : List Stat :=
  releases.map summarize

/-- Lines 47-56: the `total_downloads` accumulator. -/
def totalDownloads (releases : List RawRelease) : Nat :=
  releases.foldl (fun acc r => acc + releaseTotal (r.assets.getD [])) 0

/-- Comparison used by `release_stats.sort(key=version, reverse=True)`:
`a` may come before `b` exactly when `a`'s version is not below `b`'s.
Python's sort and `List.mergeSort` are both stable, so modelling the
descending stable sort with this relation is faithful. -/
def versionDesc (a b : Stat) : Bool := decide (b.version ≤ a.version)

/-- Comparison used by `sorted(release_stats, key=downloads, reverse=True)`. -/
def downloadsDesc (a b : Stat) : Bool := decide (b.downloads ≤ a.downloads)

/-- Line 72: `release_stats` after the in-place stable descending sort by
version string. -/
def sortedStats (releases : List RawRelease) : List Stat :=
  (releaseStats releases).mergeSort versionDesc

/-- Line 128: `sorted(release_stats, key=lambda x: x['downloads'],
reverse=True)[:3]` — note it sorts the already version-sorted list. -/
def topReleases (releases : List RawRelease) : List Stat :=
  ((sortedStats releases).mergeSort downloadsDesc).take 3

/-- Line 105's conditional expression:
`total_downloads // len(releases) if releases else 0`. -/
def avgDownloads (total : Nat) (releases : List RawRelease) : Nat :=
  if releases.isEmpty then 0 else total / releases.length

/-- Python `"=" * 90`. -/
def sepLine : String := String.mk (List.replicate 90 '=')

/-- Python `"-" * 90`. -/
def dashLine : String := String.mk (List.replicate 90 '-')

/-- Line 81, the table header. -/
def headerLine : String :=
  ljust "Version" 12 ++ " " ++ ljust "Release Date" 18 ++ " " ++
    rjust "Downloads" 12 ++ " " ++ rjust "Assets" 8 ++ " " ++ ljust "Platforms" 15

/-- Lines 86-91 and 118-123: the comma-joined platform list or `"N/A"`. -/
def platformString (s : Stat) : String :=
  let ps := (if s.win then ["Windows"] else []) ++ (if s.mac then ["macOS"] else [])
  if ps.isEmpty then "N/A" else String.intercalate ", " ps

/-- Lines 93-94, one table row. -/
def tableRow (s : Stat) : String :=
  ljust s.version 12 ++ " " ++ ljust s.date 18 ++ " " ++
    rjust (format_number s.downloads) 12 ++ " " ++
    rjust (toString s.assets_count) 8 ++ " " ++ ljust (platformString s) 15

/-- Line 97, the table footer row carrying the grand total. -/
def footerRow (total : Nat) : String :=
  ljust "TOTAL" 12 ++ " " ++ ljust "" 18 ++ " " ++
    rjust (format_number total) 12 ++ " " ++ rjust "" 8 ++ " " ++ ljust "" 15

/-- Line 114, the version line of the latest-release section. -/
def latestVersionLine (s : Stat) : String :=
  "   🏷️  Version:     " ++ s.version

/-- Lines 111-125, the latest-release section. -/
def latestLines (s : Stat) : List String :=
  [sepLine, "🆕 Latest Release", sepLine,
   latestVersionLine s,
   "   📅 Date:         " ++ s.date,
   "   ⬇️  Downloads:    " ++ format_number s.downloads,
   "   📦 Assets:       " ++ toString s.assets_count,
   "   💻 Platforms:    " ++ platformString s,
   ""]

/-- Line 132's medal list. -/
def medals : List String := ["🥇", "🥈", "🥉"]

/-- Line 135, one line of the top-3 ranking (`i` is the enumeration index). -/
def topLine (i : Nat) (s : Stat) : String :=
  medals.getD i "  " ++ " " ++ ljust s.version 12 ++ " " ++
    rjust (format_number s.downloads) 12 ++ " downloads (" ++ s.date ++ ")"

/-- Lines 133-135: `for i, stat in enumerate(top_releases)`. -/
def topLinesFrom (i : Nat) : List Stat → List String
  | [] => []
  | s :: rest => topLine i s :: topLinesFrom (i + 1) rest

/-- Lines 75-98: separators, title, table, footer and trailing blank. -/
def tableSection (releases : List RawRelease) : List String :=
  [sepLine, "📊 Download Statistics for Leadaxe/singbox-launcher", sepLine, "",
   headerLine, dashLine] ++
  (sortedStats releases).map tableRow ++
  [dashLine, footerRow (totalDownloads releases), sepLine, ""]

/-- Lines 102-106, the summary block. -/
def summarySection (releases : List RawRelease) : List String :=
  ["📈 Summary:",
   "   Total releases: " ++ toString releases.length,
   "   Total downloads: " ++ format_number (totalDownloads releases),
   "   Average downloads per release: " ++
     format_number (avgDownloads (totalDownloads releases) releases),
   ""]

/-- Lines 109-125: the latest-release section, guarded by
`if release_stats:`. -/
def latestSection (releases : List RawRelease) : List String :=
  match sortedStats releases with
  | [] => []
  | latest :: _ => latestLines latest

/-- Lines 128-136, the top-3 section. -/
def topSection (releases : List RawRelease) : List String :=
  [sepLine, "🏆 Top 3 Releases by Downloads", sepLine] ++
  topLinesFrom 0 (topReleases releases) ++ [""]

/-- Lines 75-136: everything `main` prints to stdout once releases is a
non-empty list, one list entry per `print` call. -/
def reportLines (releases : List RawRelease) : List String :=
  tableSection releases ++ summarySection releases ++
    latestSection releases ++ topSection releases

/-- Outcome of the fetch at lines 31-39: a decoded release list, a
`urllib.error.URLError` (DNS/connection/timeout/HTTP failure) carrying its
message, or a `json.JSONDecodeError` carrying its message.  The network
call itself is not embeddable; everything downstream of it is. -/
inductive FetchResult where
  | success (releases : List RawRelease)
  | urlError (msg : String)
  | jsonError (msg : String)
deriving Repr, DecidableEq

/-- Observable result of one run: stdout lines, stderr lines, exit code. -/
structure ProcResult where
  stdout : List String
  stderr : List String
  exitCode : Nat
deriving Repr, DecidableEq

/-- Lines 31-136 of `main`, as a function of the fetch outcome: on
`URLError` print `f"Error: {e}"` to stderr and exit 1; on `JSONDecodeError`
print `f"Error parsing JSON: {e}"` to stderr and exit 1; on an empty list
print `"No releases found"` and return (exit 0); otherwise print the full
report (exit 0). -/
def runMain : FetchResult → ProcResult
  | .urlError e => { stdout := [], stderr := ["Error: " ++ e], exitCode := 1 }
  | .jsonError e => { stdout := [], stderr := ["Error parsing JSON: " ++ e], exitCode := 1 }
  | .success [] => { stdout := ["No releases found"], stderr := [], exitCode := 0 }
  | .success releases => { stdout := reportLines releases, stderr := [], exitCode := 0 }

/-- Sum of a release's asset download counts, the reference value the spec
states the per-release total must equal. -/
def assetSum (r : RawRelease) : Nat :=
  ((r.assets.getD []).map assetDownloads).sum

lemma foldl_add_map {α : Type} (f : α → Nat) (l : List α) (n : Nat) :
    l.foldl (fun acc x => acc + f x) n = n + (l.map f).sum := by
  induction l generalizing n with
  | nil => simp
  | cons a t ih => simp [ih, Nat.add_assoc]

lemma releaseTotal_eq_sum (assets : List RawAsset) :
    releaseTotal assets = (assets.map assetDownloads).sum := by
  simpa [releaseTotal] using foldl_add_map assetDownloads assets 0

lemma totalDownloads_eq_sum (releases : List RawRelease) :
    totalDownloads releases = (releases.map assetSum).sum := by
  unfold totalDownloads
  rw [foldl_add_map]
  have h : (fun r : RawRelease => releaseTotal (r.assets.getD [])) = assetSum :=
    funext fun r => releaseTotal_eq_sum (r.assets.getD [])
  rw [h, Nat.zero_add]

lemma getElem?_append_cons {α : Type} (l₁ : List α) (x : α) (l₂ : List α) :
    (l₁ ++ x :: l₂)[l₁.length]? = some x := by
  induction l₁ with
  | nil => simp
  | cons a t ih => simpa using ih

lemma getElem?_append_cons' {α : Type} (l₁ : List α) (x : α) (l₂ : List α)
    (i : Nat) (h : i = l₁.length) : (l₁ ++ x :: l₂)[i]? = some x := by
  subst h
  exact getElem?_append_cons l₁ x l₂

lemma length_sortedStats (releases : List RawRelease) :
    (sortedStats releases).length = releases.length := by
  simp [sortedStats, List.length_mergeSort, releaseStats]

/-- C1.  For every list of releases the grand total accumulated by the loop
at lines 49-56 equals the sum over all releases of the sums of their
assets' download counts, each per-release summary carries the sum of that
release's asset counts, and the table footer row printed at line 97 (stdout
line `n + 7` for `n` releases) carries exactly this grand total. -/
theorem grand_total_and_footer (releases : List RawRelease) :
    totalDownloads releases = (releases.map assetSum).sum ∧
    (∀ r : RawRelease, (summarize r).downloads = assetSum r) ∧
    (reportLines releases)[releases.length + 7]? =
      some (footerRow ((releases.map assetSum).sum)) := by
  refine ⟨totalDownloads_eq_sum releases, ?_, ?_⟩
  · intro r
    simp [summarize, releaseTotal_eq_sum, assetSum]
  · rw [← totalDownloads_eq_sum releases]
    have hsplit : reportLines releases =
        ([sepLine, "📊 Download Statistics for Leadaxe/singbox-launcher",
          sepLine, "", headerLine, dashLine] ++
            (sortedStats releases).map tableRow ++ [dashLine]) ++
          footerRow (totalDownloads releases) ::
            ([sepLine, ""] ++ summarySection releases ++
              latestSection releases ++ topSection releases) := by
      simp [reportLines, tableSection]
    rw [hsplit]
    apply getElem?_append_cons'
    simp [List.length_append, List.length_map, length_sortedStats]

lemma startsWith_iff (p : List Char) : ∀ l, startsWith p l = true ↔ ∃ t, l = p ++ t := by
  induction p with
  | nil => intro l; simp [startsWith]
  | cons a ps ih =>
    intro l
    cases l with
    | nil => simp [startsWith]
    | cons c cs =>
      simp only [startsWith, Bool.and_eq_true, beq_iff_eq, ih, List.cons_append]
      constructor
      · rintro ⟨rfl, t, rfl⟩
        exact ⟨t, rfl⟩
      · rintro ⟨t, ht⟩
        injection ht with h1 h2
        exact ⟨h1.symm, t, h2⟩

lemma containsSub_iff (pat : List Char) :
    ∀ l, containsSub pat l = true ↔ ∃ s t, l = s ++ pat ++ t := by
  intro l
  induction l with
  | nil =>
    simp only [containsSub, List.isEmpty_iff]
    constructor
    · intro h
      exact ⟨[], [], by simp [h]⟩
    · rintro ⟨s, t, h⟩
      rcases List.append_eq_nil.mp h.symm with ⟨h1, h2⟩
      exact (List.append_eq_nil.mp h1).2
  | cons c cs ih =>
    simp only [containsSub, Bool.or_eq_true, ih, startsWith_iff]
    constructor
    · rintro (⟨t, ht⟩ | ⟨s, t, ht⟩)
      · exact ⟨[], t, by simp [ht]⟩
      · exact ⟨c :: s, t, by simp [ht]⟩
    · rintro ⟨s, t, ht⟩
      cases s with
      | nil =>
        left
        exact ⟨t, by simpa using ht⟩
      | cons a s₂ =>
        right
        simp only [List.cons_append, List.append_assoc] at ht
        injection ht with h1 h2
        exact ⟨s₂, t, by simpa [List.append_assoc] using h2⟩

/-- C2.  For every release, the windows flag is set iff some asset name,
ASCII-lowered, contains `"win"` as a substring, the macos flag is set iff
some lowered asset name contains `"macos"`, and in particular an asset
named `"App-WIN64.zip"` sets windows and `"app-macOS-arm64.tar.gz"` sets
macos. -/
theorem platform_flags_iff (r : RawRelease) :
    ((summarize r).win = true ↔
      ∃ a ∈ r.assets.getD [],
        ∃ s t, pyLower (a.name.getD "").data = s ++ "win".data ++ t) ∧
    ((summarize r).mac = true ↔
      ∃ a ∈ r.assets.getD [],
        ∃ s t, pyLower (a.name.getD "").data = s ++ "macos".data ++ t) ∧
    (summarize { tag_name := some "v9", published_at := none,
                 assets := some [{ name := some "App-WIN64.zip", download_count := some 1 }] }).win
        = true ∧
    (summarize { tag_name := some "v9", published_at := none,
                 assets := some [{ name := some "app-macOS-arm64.tar.gz", download_count := some 1 }] }).mac
        = true := by
  have flag : ∀ pat : String, 0 < matchCount pat (r.assets.getD []) ↔
      ∃ a ∈ r.assets.getD [],
        ∃ s t, pyLower (a.name.getD "").data = s ++ pat.data ++ t := by
    intro pat
    unfold matchCount
    rw [List.countP_pos_iff]
    constructor
    · rintro ⟨a, ha, hp⟩
      exact ⟨a, ha, (containsSub_iff _ _).mp hp⟩
    · rintro ⟨a, ha, s, t, h⟩
      exact ⟨a, ha, (containsSub_iff _ _).mpr ⟨s, t, h⟩⟩
  refine ⟨?_, ?_, by decide, by decide⟩
  · rw [show (summarize r).win = decide (0 < matchCount "win" (r.assets.getD [])) from rfl,
      decide_eq_true_iff]
    exact flag "win"
  · rw [show (summarize r).mac = decide (0 < matchCount "macos" (r.assets.getD [])) from rfl,
      decide_eq_true_iff]
    exact flag "macos"

lemma replaceZ_eq_trailing :
    ∀ cs : List Char, (∀ c ∈ cs.dropLast, c ≠ 'Z') →
      replaceZChars cs = replaceTrailingZ cs := by
  intro cs
  induction cs with
  | nil =>
    intro _
    simp [replaceZChars, replaceTrailingZ]
  | cons c rest ih =>
    intro h
    cases rest with
    | nil =>
      by_cases hc : c = 'Z'
      · subst hc
        simp [replaceZChars, replaceTrailingZ]
      · simp [replaceZChars, replaceTrailingZ, hc]
    | cons c₂ rest₂ =>
      have hc : c ≠ 'Z' := h c (by rw [List.dropLast_cons₂]; exact List.mem_cons_self c _)
      have h₂ : ∀ x ∈ (c₂ :: rest₂).dropLast, x ≠ 'Z' := by
        intro x hx
        exact h x (by rw [List.dropLast_cons₂]; exact List.mem_cons_of_mem _ hx)
      show (if c == 'Z' then "+00:00".data else [c]) ++ replaceZChars (c₂ :: rest₂) = _
      rw [if_neg (by simpa using hc), ih h₂]
      unfold replaceTrailingZ
      rw [List.getLast?_cons_cons, List.dropLast_cons₂]
      by_cases hz : (c₂ :: rest₂).getLast? = some 'Z'
      · simp [hz]
      · simp [hz]

/-- C3 (amended).  `format_date` replaces every occurrence of `'Z'` with
`"+00:00"`, not only a trailing one; on every input whose non-final
characters contain no `'Z'` it therefore behaves exactly as the claim
states (spec-worded `format_date_spec`): parse, render `"YYYY-MM-DD HH:MM"`
on success, pass the raw string through unchanged on failure, never
raising.  The claim's concrete instances are included. -/
theorem format_date_amended (s : String) (h : ∀ c ∈ s.data.dropLast, c ≠ 'Z') :
    format_date s = format_date_spec s ∧
    format_date "not-a-date" = "not-a-date" ∧
    format_date "2025-01-02T03:04:05Z" = "2025-01-02 03:04" := by
  refine ⟨?_, by decide, by decide⟩
  unfold format_date format_date_spec
  rw [replaceZ_eq_trailing s.data h]

theorem format_date_amended_witness :
    format_date "2026-03-04T05:06:07Z" = format_date_spec "2026-03-04T05:06:07Z" ∧
    format_date "not-a-date" = "not-a-date" ∧
    format_date "2025-01-02T03:04:05Z" = "2025-01-02 03:04" :=
  format_date_amended "2026-03-04T05:06:07Z" (by decide)

/-- C3 counterexample.  On `"2024-01-01Z00:00"` — a string CPython's
`fromisoformat` accepts as-is, the `'Z'` at index 10 being the ignored
date/time separator — the claimed treatment of only a *trailing* `'Z'`
would parse it and render `"2024-01-01 00:00"`, but the code's global
`replace` corrupts the time part (`"00:0000:00"`), the parse fails, and the
input is passed through unchanged. -/
theorem format_date_claim_counterexample :
    format_date "2024-01-01Z00:00" = "2024-01-01Z00:00" ∧
    format_date_spec "2024-01-01Z00:00" = "2024-01-01 00:00" := by
  constructor <;> decide

lemma downloadsDesc_trans :
    ∀ a b c : Stat, downloadsDesc a b = true → downloadsDesc b c = true →
      downloadsDesc a c = true := by
  intro a b c hab hbc
  simp only [downloadsDesc, decide_eq_true_eq] at *
  exact le_trans hbc hab

lemma downloadsDesc_total :
    ∀ a b : Stat, (downloadsDesc a b || downloadsDesc b a) = true := by
  intro a b
  simp only [downloadsDesc, Bool.or_eq_true, decide_eq_true_eq]
  exact le_total b.downloads a.downloads

lemma versionDesc_trans :
    ∀ a b c : Stat, versionDesc a b = true → versionDesc b c = true →
      versionDesc a c = true := by
  intro a b c hab hbc
  simp only [versionDesc, decide_eq_true_eq] at *
  exact le_trans hbc hab

lemma versionDesc_total :
    ∀ a b : Stat, (versionDesc a b || versionDesc b a) = true := by
  intro a b
  simp only [versionDesc, Bool.or_eq_true, decide_eq_true_eq]
  exact le_total b.version a.version

/-- C4.  The top-N selection at line 128 returns at most as many entries as
there are releases; with 3 or more releases it returns exactly 3; the
returned list is ordered by per-release download total, descending; and the
underlying stable sort keeps entries with equal totals in their relative
order from the version-descending-sorted sequence (for every total `d`, the
`d`-entries of the downloads-sorted list read exactly as they do in
`sortedStats`). -/
theorem top3_selection (releases : List RawRelease) :
    (topReleases releases).length ≤ releases.length ∧
    (3 ≤ releases.length → (topReleases releases).length = 3) ∧
    (topReleases releases).Pairwise (fun a b => b.downloads ≤ a.downloads) ∧
    (∀ d : Nat,
      ((sortedStats releases).mergeSort downloadsDesc).filter (fun s => s.downloads == d) =
        (sortedStats releases).filter (fun s => s.downloads == d)) := by
  have hXlen : ((sortedStats releases).mergeSort downloadsDesc).length = releases.length := by
    rw [List.length_mergeSort, length_sortedStats]
  refine ⟨?_, ?_, ?_, ?_⟩
  · simp [topReleases, List.length_take, hXlen]
  · intro h3
    simp only [topReleases, List.length_take, hXlen]
    omega
  · have hp := List.sorted_mergeSort downloadsDesc_trans downloadsDesc_total
      (sortedStats releases)
    have hp₂ : ((sortedStats releases).mergeSort downloadsDesc).Pairwise
        (fun a b => b.downloads ≤ a.downloads) :=
      hp.imp (fun h => by simpa [downloadsDesc] using h)
    exact List.Pairwise.sublist (List.take_sublist 3 _) hp₂
  · intro d
    have hsub : ((sortedStats releases).filter (fun s => s.downloads == d)).Sublist
        (sortedStats releases) := List.filter_sublist _
    have hpw : ((sortedStats releases).filter (fun s => s.downloads == d)).Pairwise
        (fun a b => downloadsDesc a b = true) := by
      apply List.pairwise_of_forall_mem_list
      intro a ha b hb
      have ha₂ : a.downloads = d := by simpa using (List.mem_filter.mp ha).2
      have hb₂ : b.downloads = d := by simpa using (List.mem_filter.mp hb).2
      simp [downloadsDesc, ha₂, hb₂]
    have hsub₂ := List.sublist_mergeSort downloadsDesc_trans downloadsDesc_total hpw hsub
    have hsub₃ := hsub₂.filter (fun s => s.downloads == d)
    have hself : ((sortedStats releases).filter (fun s => s.downloads == d)).filter
        (fun s => s.downloads == d) =
        (sortedStats releases).filter (fun s => s.downloads == d) :=
      List.filter_eq_self.mpr (fun a ha => (List.mem_filter.mp ha).2)
    rw [hself] at hsub₃
    have hlen : (((sortedStats releases).mergeSort downloadsDesc).filter
        (fun s => s.downloads == d)).length =
        ((sortedStats releases).filter (fun s => s.downloads == d)).length :=
      ((List.mergeSort_perm (sortedStats releases) downloadsDesc).filter _).length_eq
    exact (hsub₃.eq_of_length hlen.symm).symm

theorem top3_selection_witness :
    (topReleases
      [{ tag_name := some "v1.0", published_at := none,
         assets := some [{ name := some "a-win.zip", download_count := some 10 }] },
       { tag_name := some "v2.0", published_at := none,
         assets := some [{ name := some "b-win.zip", download_count := some 10 }] },
       { tag_name := some "v3.0", published_at := none,
         assets := some [{ name := some "c-macos.zip", download_count := some 4 }] },
       { tag_name := some "v4.0", published_at := none, assets := none }]).length = 3 :=
  (top3_selection _).2.1 (by decide)

lemma sortedStats_pairwise (releases : List RawRelease) :
    (sortedStats releases).Pairwise (fun a b => b.version ≤ a.version) := by
  have hp := List.sorted_mergeSort versionDesc_trans versionDesc_total (releaseStats releases)
  exact hp.imp (fun hab => by simpa [versionDesc] using hab)

/-- C5.  For every non-empty release list the summary sequence rendered in
the main table (`sortedStats`, the list whose rows `tableSection` prints)
is sorted by version string in descending lexicographic order and is a
permutation of the summaries of the input releases. -/
theorem table_sorted_perm (releases : List RawRelease) (_h : releases ≠ []) :
    (sortedStats releases).Pairwise (fun a b => b.version ≤ a.version) ∧
    (sortedStats releases).Perm (releases.map summarize) := by
  exact ⟨sortedStats_pairwise releases, List.mergeSort_perm (releaseStats releases) versionDesc⟩

theorem table_sorted_perm_witness :
    (sortedStats
      [{ tag_name := some "v1.0", published_at := none,
         assets := some [{ name := some "app-win.zip", download_count := some 10 }] },
       { tag_name := some "v2.0", published_at := none,
         assets := some [{ name := some "app-macos.zip", download_count := some 5 }] }]).Pairwise
      (fun a b => b.version ≤ a.version) ∧
    (sortedStats
      [{ tag_name := some "v1.0", published_at := none,
         assets := some [{ name := some "app-win.zip", download_count := some 10 }] },
       { tag_name := some "v2.0", published_at := none,
         assets := some [{ name := some "app-macos.zip", download_count := some 5 }] }]).Perm
      ([{ tag_name := some "v1.0", published_at := none,
          assets := some [{ name := some "app-win.zip", download_count := some 10 }] },
        { tag_name := some "v2.0", published_at := none,
          assets := some [{ name := some "app-macos.zip", download_count := some 5 }] }].map summarize) :=
  table_sorted_perm _ (by decide)

/-- C6.  For every non-empty release list, the release shown in the
"Latest release" section is the head of the version-descending-sorted
summary sequence, its version tag is lexicographically greatest among all
summaries, and the section's version line (stdout line `n + 18` for `n`
releases) prints exactly that summary's version. -/
theorem latest_release_head (releases : List RawRelease) (h : releases ≠ []) :
    ∃ latest : Stat, (sortedStats releases).head? = some latest ∧
      latest ∈ releases.map summarize ∧
      (∀ s ∈ releases.map summarize, s.version ≤ latest.version) ∧
      (reportLines releases)[releases.length + 18]? = some (latestVersionLine latest) := by
  have hne : sortedStats releases ≠ [] := by
    intro hnil
    have hlen := length_sortedStats releases
    rw [hnil] at hlen
    exact h (List.length_eq_zero.mp hlen.symm)
  obtain ⟨latest, rest, hcons⟩ := List.exists_cons_of_ne_nil hne
  have hperm : (sortedStats releases).Perm (releases.map summarize) :=
    List.mergeSort_perm (releaseStats releases) versionDesc
  refine ⟨latest, by rw [hcons]; rfl, ?_, ?_, ?_⟩
  · exact hperm.subset (by rw [hcons]; exact List.mem_cons_self _ _)
  · intro s hs
    have hs₂ : s ∈ sortedStats releases := hperm.mem_iff.mpr hs
    rw [hcons] at hs₂
    rcases List.mem_cons.mp hs₂ with rfl | hs₃
    · exact le_refl _
    · have hp := sortedStats_pairwise releases
      rw [hcons] at hp
      exact (List.pairwise_cons.mp hp).1 s hs₃
  · have hsplit : reportLines releases =
        (tableSection releases ++ summarySection releases ++
          [sepLine, "🆕 Latest Release", sepLine]) ++
        latestVersionLine latest ::
          (["   📅 Date:         " ++ latest.date,
            "   ⬇️  Downloads:    " ++ format_number latest.downloads,
            "   📦 Assets:       " ++ toString latest.assets_count,
            "   💻 Platforms:    " ++ platformString latest, ""] ++
            topSection releases) := by
      simp [reportLines, latestSection, hcons, latestLines, List.append_assoc]
    rw [hsplit]
    apply getElem?_append_cons'
    simp [tableSection, summarySection, List.length_append, List.length_map,
      length_sortedStats]

theorem latest_release_head_witness :
    ∃ latest : Stat,
      (sortedStats
        [{ tag_name := some "v1.0", published_at := none,
           assets := some [{ name := some "app-win.zip", download_count := some 10 }] },
         { tag_name := some "v2.0", published_at := none,
           assets := some [{ name := some "app-macos.zip", download_count := some 5 }] }]).head?
        = some latest ∧
      latest ∈ [{ tag_name := some "v1.0", published_at := none,
                  assets := some [{ name := some "app-win.zip", download_count := some 10 }] },
                { tag_name := some "v2.0", published_at := none,
                  assets := some [{ name := some "app-macos.zip", download_count := some 5 }] }].map summarize ∧
      (∀ s ∈ [{ tag_name := some "v1.0", published_at := none,
                assets := some [{ name := some "app-win.zip", download_count := some 10 }] },
              { tag_name := some "v2.0", published_at := none,
                assets := some [{ name := some "app-macos.zip", download_count := some 5 }] }].map summarize,
        s.version ≤ latest.version) ∧
      (reportLines
        [{ tag_name := some "v1.0", published_at := none,
           assets := some [{ name := some "app-win.zip", download_count := some 10 }] },
         { tag_name := some "v2.0", published_at := none,
           assets := some [{ name := some "app-macos.zip", download_count := some 5 }] }])[2 + 18]?
        = some (latestVersionLine latest) :=
  latest_release_head _ (by decide)

/-- C7.  An empty fetched release list makes `main` print the single line
`"No releases found"` to stdout and return normally (exit status 0), with
no table, summary, latest-release or top-3 section rendered. -/
theorem empty_releases_behavior :
    runMain (FetchResult.success []) =
      { stdout := ["No releases found"], stderr := [], exitCode := 0 } := rfl

/-- C8.  The average-downloads-per-release expression at line 105 is the
integer floor division of the grand total by the release count when the
list is non-empty, and evaluates to 0 (raising nothing — the function is
total) when the release count is zero. -/
theorem avg_downloads_floor_div (total : Nat) (releases : List RawRelease)
    (h : releases ≠ []) :
    avgDownloads total releases = total / releases.length ∧
    avgDownloads total [] = 0 := by
  constructor
  · unfold avgDownloads
    rw [if_neg (by simpa [List.isEmpty_iff] using h)]
  · rfl

theorem avg_downloads_floor_div_witness :
    avgDownloads 18 [{ tag_name := none, published_at := none, assets := none },
                     { tag_name := none, published_at := none, assets := none }] =
      18 / ([{ tag_name := none, published_at := none, assets := none },
             { tag_name := none, published_at := none, assets := none }] :
               List RawRelease).length ∧
    avgDownloads 18 ([] : List RawRelease) = 0 :=
  avg_downloads_floor_div 18 _ (by decide)

/-- C9.  On a transport-level failure (`urllib.error.URLError`, covering
DNS, connection and timeout errors) `main` prints the one-line diagnostic
`"Error: ..."` to stderr and exits with status 1; on a body that is not
valid JSON (`json.JSONDecodeError`) it prints `"Error parsing JSON: ..."`
to stderr and exits 1; in both cases stdout receives nothing. -/
theorem fetch_error_behavior (msg : String) :
    runMain (FetchResult.urlError msg) =
      { stdout := [], stderr := ["Error: " ++ msg], exitCode := 1 } ∧
    runMain (FetchResult.jsonError msg) =
      { stdout := [], stderr := ["Error parsing JSON: " ++ msg], exitCode := 1 } :=
  ⟨rfl, rfl⟩

/-- C10.  Aggregation substitutes safe defaults for missing fields and (as
a total function) never raises: missing `tag_name` and `published_at`
become `"N/A"`, a missing assets list is treated as empty, a missing
`download_count` contributes 0 to the release total, and a missing asset
name acts as the empty string, setting no platform flag. -/
theorem missing_fields_defaults :
    summarize { tag_name := none, published_at := none, assets := none } =
      { version := "N/A", date := "N/A", downloads := 0, assets_count := 0,
        win := false, mac := false } ∧
    summarize { tag_name := some "v1.0", published_at := some "2024-05-06T07:08:09Z",
                assets := some [{ name := none, download_count := none },
                                { name := some "app-win.zip", download_count := some 5 }] } =
      { version := "v1.0", date := "2024-05-06 07:08", downloads := 5, assets_count := 2,
        win := true, mac := false } ∧
    (∀ n : Option String, assetDownloads { name := n, download_count := none } = 0) ∧
    matchCount "win" [{ name := none, download_count := some 99 }] = 0 ∧
    matchCount "macos" [{ name := none, download_count := some 99 }] = 0 := by
  exact ⟨by decide, by decide, fun n => rfl, by decide, by decide⟩
